import Mathlib

/-!
Verification of the operation dispatch and kernel-generation subsystem of
the Cosserat rod backend (`src/backend/src/Systems/CosseratRods/Traits/
Operations/BlazeBackend`).

The repository sample contains the two Operation Trait dispatch headers
(`VecScalarDiv/SIMD.hpp` and `Difference/SIMD.hpp`); the Kernel Generators
(`lazy_vector_scalar_kernel_simd`, `lazy_twopoint_kernel_simd`), the
Operation Descriptors and the scalar backend they forward to are declared
but not included, so those parts are modelled from the specification.

Vector expressions are embedded as `List ℚ` (an exact field, matching the
spec's statement that the sampled operations do not accumulate and the two
backends must agree exactly); the hardware vector width of the SIMD backend
is an explicit parameter `w`.
-/

set_option autoImplicit false

universe u v

/-- Execution kinds for the Vector-Scalar Division operation family,
from `VecScalarDiv/BaseTemplate.hpp` (declared in the sampled headers). -/
inductive VecScalarDivKind where
  | scalar : VecScalarDivKind
  | simd : VecScalarDivKind
deriving DecidableEq

/-- Execution kinds for the Two-Point Difference operation family,
from `Difference/BaseTemplate.hpp` (declared in the sampled headers). -/
inductive DifferenceKind where
  | scalar : DifferenceKind
  | simd : DifferenceKind
deriving DecidableEq

/-- Modelled from the spec: the stateless Operation Descriptor of the
Vector-Scalar Division family (`VecScalarDiv/Operation.hpp` is not in the
sample). It holds no state. -/
structure VectorScalarDivOperation

/-- Modelled from the spec: the stateless Operation Descriptor of the
Two-Point Difference family (`Difference/Operation.hpp` is not in the
sample). It holds no state. -/
structure DifferenceOperation

/-- Modelled from the spec: the per-index transform of Vector-Scalar
Division, `v[i] / s`. -/
def VectorScalarDivOperation.transform (_ : VectorScalarDivOperation)
    (x s : ℚ) : ℚ :=
  x / s

/-- Modelled from the spec: the per-window transform of the Two-Point
Difference stencil, `out[i] = v[i+1] - v[i]`, applied to the window
`(v[i+1], v[i])`. -/
def DifferenceOperation.window (_ : DifferenceOperation) (next cur : ℚ) : ℚ :=
  next - cur

/-- Elementwise map in an `Except`-valued (exception-aware) semantics:
each per-element primitive may signal, and a signal propagates to the
caller. Used to express the no-exception and no-division-by-zero claims. -/
def mapE {α : Type u} {β : Type v} (f : α → Except String β) :
    List α → Except String (List β)
  | [] => Except.ok []
  | x :: xs =>
    match f x, mapE f xs with
    | Except.error e, _ => Except.error e
    | Except.ok _, Except.error e => Except.error e
    | Except.ok y, Except.ok ys => Except.ok (y :: ys)

/-- Modelled from the spec (§4.6): the batch loop of the SIMD Kernel
Generator. While at least one full batch of width `w` remains, the
Operation Descriptor's transform `f` is applied across the whole batch
(the first `w` elements) by vectorized arithmetic; the remainder shorter
than one full batch falls back to the scalar backend's per-index logic
(`List.map f`). The first argument is recursion fuel bounding the number
of batch iterations; `simdKernel` supplies enough fuel. -/
def simdChunks {α : Type u} {β : Type v} (w : ℕ) (f : α → β) :
    ℕ → List α → List β
  | 0, xs => xs.map f
  | n + 1, xs =>
    if 0 < w ∧ w ≤ xs.length then
      (xs.take w).map f ++ simdChunks w f n (xs.drop w)
    else
      xs.map f

/-- Modelled from the spec (§4.6): the SIMD Kernel Generator's traversal
of an index range, at hardware vector width `w`. -/
def simdKernel {α : Type u} {β : Type v} (w : ℕ) (f : α → β)
    (xs : List α) : List β :=
  simdChunks w f xs.length xs

/-- Fuel-instrumented SIMD batch loop: `none` when the fuel bound on the
number of batch iterations is exhausted. Witnesses that every call
completes within a number of steps bounded by the input length. -/
def simdKernelFuel {α : Type u} {β : Type v} (fuel w : ℕ) (f : α → β)
    (xs : List α) : Option (List β) :=
  match fuel with
  | 0 => none
  | n + 1 =>
    if 0 < w ∧ w ≤ xs.length then
      match simdKernelFuel n w f (xs.drop w) with
      | none => none
      | some rest => some ((xs.take w).map f ++ rest)
    else
      some (xs.map f)

/-- Exception-aware SIMD batch loop: the same batch structure as
`simdChunks`, with each per-element primitive allowed to signal. -/
def simdChunksE {α : Type u} {β : Type v} (w : ℕ)
    (f : α → Except String β) : ℕ → List α → Except String (List β)
  | 0, xs => mapE f xs
  | n + 1, xs =>
    if 0 < w ∧ w ≤ xs.length then
      match mapE f (xs.take w), simdChunksE w f n (xs.drop w) with
      | Except.error e, _ => Except.error e
      | Except.ok _, Except.error e => Except.error e
      | Except.ok batch, Except.ok rest => Except.ok (batch ++ rest)
    else
      mapE f xs

/-- Exception-aware SIMD Kernel Generator traversal. -/
def simdKernelE {α : Type u} {β : Type v} (w : ℕ)
    (f : α → Except String β) (xs : List α) : Except String (List β) :=
  simdChunksE w f xs.length xs

/-- Modelled from the spec: the scalar Kernel Generator for vector-scalar
operations (`KernelGenerators/VecScalar` scalar backend, not in the
sample): a plain per-index loop applying the descriptor's transform. -/
def lazy_vector_scalar_kernel_scalar (op : VectorScalarDivOperation)
    (v : List ℚ) (s : ℚ) : List ℚ :=
  v.map (fun x => op.transform x s)

/-- Modelled from the spec: the SIMD Kernel Generator for vector-scalar
operations (`KernelGenerators/VecScalar/SIMD.hpp`, not in the sample):
batches of hardware width `w`, scalar remainder. -/
def lazy_vector_scalar_kernel_simd (op : VectorScalarDivOperation)
    (w : ℕ) (v : List ℚ) (s : ℚ) : List ℚ :=
  simdKernel w (fun x => op.transform x s) v

/-- The stencil window stream of the two-point kernels: the ordered list
of dependency windows `(v[i+1], v[i])` for `i` in the output index range
`[0, n-2]`; batch boundaries over this stream never read past the loaded
input range. -/
def twopointWindows (v : List ℚ) : List (ℚ × ℚ) :=
  v.tail.zip v

/-- Modelled from the spec: the scalar Kernel Generator for two-point
stencil operations (`Calculus/KernelGenerators` scalar backend, not in
the sample): a per-index loop over the `n-1` stencil windows. -/
def lazy_twopoint_kernel_scalar (op : DifferenceOperation)
    (v : List ℚ) : List ℚ :=
  (twopointWindows v).map (fun p => op.window p.1 p.2)

/-- Modelled from the spec: the SIMD Kernel Generator for two-point
stencil operations (`Calculus/KernelGenerators/SIMD.hpp`, not in the
sample): batches of hardware width `w` over the stencil windows, scalar
remainder. -/
def lazy_twopoint_kernel_simd (op : DifferenceOperation)
    (w : ℕ) (v : List ℚ) : List ℚ :=
  simdKernel w (fun p => op.window p.1 p.2) (twopointWindows v)

/-- Embedded from `VecScalarDiv/SIMD.hpp` lines 18-26 and (spec-modelled)
the scalar specialization: `VecScalarDivOp<Kind>::apply` forwards its
arguments, together with a freshly constructed `VectorScalarDivOperation`,
to the Kernel Generator selected by `Kind`. -/
def VecScalarDivOp_apply (k : VecScalarDivKind) (w : ℕ) (v : List ℚ)
    (s : ℚ) : List ℚ :=
  match k with
  | VecScalarDivKind.scalar => lazy_vector_scalar_kernel_scalar ⟨⟩ v s
  | VecScalarDivKind.simd => lazy_vector_scalar_kernel_simd ⟨⟩ w v s

/-- Embedded from `Difference/SIMD.hpp` lines 18-26 and (spec-modelled)
the scalar specialization: `DifferenceOp<Kind>::apply` forwards its
arguments, together with a freshly constructed `DifferenceOperation`, to
the Kernel Generator selected by `Kind`. -/
def DifferenceOp_apply (k : DifferenceKind) (w : ℕ) (v : List ℚ) :
    List ℚ :=
  match k with
  | DifferenceKind.scalar => lazy_twopoint_kernel_scalar ⟨⟩ v
  | DifferenceKind.simd => lazy_twopoint_kernel_simd ⟨⟩ w v

/-- Modelled from the spec (§4.3): the arithmetic division primitive in
the exception-aware semantics; division by a zero scalar is the one
undefined-behavior event of this layer, represented as a propagated
signal. The layer itself never raises it when the caller validates
`s ≠ 0`. -/
def checkedDiv (x s : ℚ) : Except String ℚ :=
  if s = 0 then Except.error "division by zero" else Except.ok (x / s)

/-- The exception-aware run of the SIMD Vector-Scalar Division kernel:
every division goes through `checkedDiv`. -/
def vecScalarDivChecked (w : ℕ) (v : List ℚ) (s : ℚ) :
    Except String (List ℚ) :=
  simdKernelE w (fun x => checkedDiv x s) v

/-- The exception-aware run of the SIMD Vector-Scalar Division kernel
with every primitive embedded as non-signalling (the sampled operations
contain no throwing primitive). -/
def vecScalarDivExcept (w : ℕ) (v : List ℚ) (s : ℚ) :
    Except String (List ℚ) :=
  simdKernelE w (fun x => Except.ok (VectorScalarDivOperation.transform ⟨⟩ x s)) v

/-- The exception-aware run of the SIMD Two-Point Difference kernel with
every primitive embedded as non-signalling. -/
def differenceExcept (w : ℕ) (v : List ℚ) : Except String (List ℚ) :=
  simdKernelE w (fun p => Except.ok (DifferenceOperation.window ⟨⟩ p.1 p.2))
    (twopointWindows v)

/-- Argument state of a `VecScalarDivOp::apply` call: the caller-supplied
output expression, the input expression and the scalar. -/
structure VecScalarDivArgs where
  output : List ℚ
  input : List ℚ
  scalar : ℚ
deriving DecidableEq

/-- Argument state of a `DifferenceOp::apply` call: the caller-supplied
output expression and the input expression. -/
structure DifferenceArgs where
  output : List ℚ
  input : List ℚ
deriving DecidableEq

/-- Embedded from `VecScalarDiv/SIMD.hpp` (return type `void`, the kernel
writes through the caller's expressions): the state-passing form of
`VecScalarDivOp<simd>::apply`. The returned `Unit` is the C++ `void`
value; the argument state comes back with the output expression
overwritten by the kernel's result. -/
def VecScalarDivOp_simd_applySt (w : ℕ) (a : VecScalarDivArgs) :
    Unit × VecScalarDivArgs :=
  ((), { a with output := lazy_vector_scalar_kernel_simd ⟨⟩ w a.input a.scalar })

/-- Embedded from `Difference/SIMD.hpp` (return type `void`, the kernel
writes through the caller's expressions): the state-passing form of
`DifferenceOp<simd>::apply`. -/
def DifferenceOp_simd_applySt (w : ℕ) (a : DifferenceArgs) :
    Unit × DifferenceArgs :=
  ((), { a with output := lazy_twopoint_kernel_simd ⟨⟩ w a.input })

/-! ### Kernel lemmas -/

/-- With fuel at least the input length, the SIMD batch loop computes the
plain elementwise map: each full batch applies `f` to `w` elements, the
remainder applies `f` per index. -/
theorem simdChunks_eq_map {α : Type u} {β : Type v} (w : ℕ) (f : α → β) :
    ∀ (n : ℕ) (xs : List α), xs.length ≤ n → simdChunks w f n xs = xs.map f := by
  intro n
  induction n with
  | zero => intro xs _; rfl
  | succ n ih =>
    intro xs hlen
    show (if 0 < w ∧ w ≤ xs.length then
        (xs.take w).map f ++ simdChunks w f n (xs.drop w)
      else xs.map f) = xs.map f
    by_cases h : 0 < w ∧ w ≤ xs.length
    · rw [if_pos h, ih (xs.drop w) ?_, ← List.map_append, List.take_append_drop]
      have hdrop : (xs.drop w).length = xs.length - w := List.length_drop w xs
      omega
    · rw [if_neg h]

/-- The SIMD kernel traversal equals the scalar per-index map. -/
theorem simdKernel_eq_map {α : Type u} {β : Type v} (w : ℕ) (f : α → β)
    (xs : List α) : simdKernel w f xs = xs.map f :=
  simdChunks_eq_map w f xs.length xs (Nat.le_refl _)

/-- Inside the bounds, `getD` commutes with `map` regardless of defaults. -/
theorem getD_map_of_lt {α : Type u} {β : Type v} (f : α → β) (d : α)
    (d' : β) : ∀ (v : List α) (i : ℕ), i < v.length →
    (v.map f).getD i d' = f (v.getD i d)
  | [], i, h => absurd h (Nat.not_lt_zero i)
  | _ :: _, 0, _ => rfl
  | _ :: t, i + 1, h =>
    getD_map_of_lt f d d' t i (Nat.lt_of_succ_lt_succ h)

/-- Inside the bounds, `getD` of a `zip` is the pair of the `getD`s. -/
theorem getD_zip_of_lt {α : Type u} {β : Type v} (d1 : α) (d2 : β) :
    ∀ (as : List α) (bs : List β) (i : ℕ), i < as.length → i < bs.length →
    (as.zip bs).getD i (d1, d2) = (as.getD i d1, bs.getD i d2)
  | [], _, i, ha, _ => absurd ha (Nat.not_lt_zero i)
  | _ :: _, [], i, _, hb => absurd hb (Nat.not_lt_zero i)
  | _ :: _, _ :: _, 0, _, _ => rfl
  | _ :: as, _ :: bs, i + 1, ha, hb =>
    getD_zip_of_lt d1 d2 as bs i (Nat.lt_of_succ_lt_succ ha)
      (Nat.lt_of_succ_lt_succ hb)

/-- `getD` on the tail shifts the index by one. -/
theorem getD_tail_eq {α : Type u} (d : α) :
    ∀ (v : List α) (i : ℕ), v.tail.getD i d = v.getD (i + 1) d
  | [], _ => rfl
  | _ :: _, _ => rfl

/-- The stencil window stream of a length-`n` input has length `n - 1`. -/
theorem twopointWindows_length (v : List ℚ) :
    (twopointWindows v).length = v.length - 1 := by
  simp only [twopointWindows, List.length_zip, List.length_tail]
  omega

/-- Window `i` of the stencil stream is `(v[i+1], v[i])`. -/
theorem twopointWindows_getD (v : List ℚ) (i : ℕ) (h : i + 1 < v.length) :
    (twopointWindows v).getD i (0, 0) = (v.getD (i + 1) 0, v.getD i 0) := by
  have ht : i < v.tail.length := by
    simp only [List.length_tail]; omega
  rw [twopointWindows, getD_zip_of_lt 0 0 v.tail v i ht (by omega),
    getD_tail_eq]

/-- Both backends of Vector-Scalar Division compute the elementwise
division map. -/
theorem VecScalarDivOp_apply_eq_map (k : VecScalarDivKind) (w : ℕ)
    (v : List ℚ) (s : ℚ) :
    VecScalarDivOp_apply k w v s = v.map (fun x => x / s) := by
  cases k with
  | scalar => rfl
  | simd =>
    show simdKernel w (fun x => VectorScalarDivOperation.transform ⟨⟩ x s) v
        = v.map (fun x => x / s)
    rw [simdKernel_eq_map]
    rfl

/-- Both backends of Two-Point Difference compute the map of the window
transform over the stencil stream. -/
theorem DifferenceOp_apply_eq_map (k : DifferenceKind) (w : ℕ)
    (v : List ℚ) :
    DifferenceOp_apply k w v = (twopointWindows v).map (fun p => p.1 - p.2) := by
  cases k with
  | scalar => rfl
  | simd =>
    show simdKernel w (fun p => DifferenceOperation.window ⟨⟩ p.1 p.2)
        (twopointWindows v) = (twopointWindows v).map (fun p => p.1 - p.2)
    rw [simdKernel_eq_map]
    rfl

/-- With fuel exceeding the input length, the fuel-instrumented batch
loop completes and computes the elementwise map. -/
theorem simdKernelFuel_complete {α : Type u} {β : Type v} (w : ℕ)
    (f : α → β) : ∀ (n : ℕ) (xs : List α), xs.length < n →
    simdKernelFuel n w f xs = some (xs.map f) := by
  intro n
  induction n with
  | zero => intro xs h; omega
  | succ n ih =>
    intro xs h
    by_cases hc : 0 < w ∧ w ≤ xs.length
    · have hdrop : (xs.drop w).length = xs.length - w := List.length_drop w xs
      have hrec := ih (xs.drop w) (by omega)
      simp only [simdKernelFuel, if_pos hc, hrec, ← List.map_append,
        List.take_append_drop]
    · simp only [simdKernelFuel, if_neg hc]

/-- A pointwise non-signalling primitive makes `mapE` total: it returns
the plain map. -/
theorem mapE_ok {α : Type u} {β : Type v} {f : α → Except String β}
    {g : α → β} (hf : ∀ a, f a = Except.ok (g a)) :
    ∀ xs : List α, mapE f xs = Except.ok (xs.map g) := by
  intro xs
  induction xs with
  | nil => rfl
  | cons x xs ih => simp only [mapE, hf x, ih, List.map_cons]

/-- A pointwise non-signalling primitive makes the exception-aware batch
loop total: it returns the plain batch loop's result. -/
theorem simdChunksE_ok {α : Type u} {β : Type v} (w : ℕ)
    {f : α → Except String β} {g : α → β}
    (hf : ∀ a, f a = Except.ok (g a)) :
    ∀ (n : ℕ) (xs : List α),
    simdChunksE w f n xs = Except.ok (simdChunks w g n xs) := by
  intro n
  induction n with
  | zero => intro xs; exact mapE_ok hf xs
  | succ n ih =>
    intro xs
    by_cases hc : 0 < w ∧ w ≤ xs.length
    · simp only [simdChunksE, simdChunks, if_pos hc, mapE_ok hf, ih]
    · simp only [simdChunksE, simdChunks, if_neg hc, mapE_ok hf]

/-- A pointwise non-signalling primitive makes the exception-aware kernel
traversal total. -/
theorem simdKernelE_ok {α : Type u} {β : Type v} (w : ℕ)
    {f : α → Except String β} {g : α → β}
    (hf : ∀ a, f a = Except.ok (g a)) (xs : List α) :
    simdKernelE w f xs = Except.ok (simdKernel w g xs) :=
  simdChunksE_ok w hf xs.length xs

/-- A signal raised by the primitive on the head element propagates out
of `mapE`. -/
theorem mapE_cons_error {α : Type u} {β : Type v}
    (f : α → Except String β) (x : α) {e : String}
    (hx : f x = Except.error e) (xs : List α) :
    mapE f (x :: xs) = Except.error e := by
  simp only [mapE, hx]

/-- A signal raised by the primitive on the head element propagates out
of the exception-aware batch loop. -/
theorem simdChunksE_cons_error {α : Type u} {β : Type v} (w : ℕ)
    (f : α → Except String β) (x : α) {e : String}
    (hx : f x = Except.error e) (xs : List α) :
    ∀ n : ℕ, simdChunksE w f n (x :: xs) = Except.error e := by
  intro n
  cases n with
  | zero => exact mapE_cons_error f x hx xs
  | succ n =>
    by_cases hc : 0 < w ∧ w ≤ (x :: xs).length
    · obtain ⟨w', rfl⟩ : ∃ w', w = w' + 1 :=
        ⟨w - 1, by omega⟩
      simp only [simdChunksE, if_pos hc, List.take_succ_cons,
        mapE_cons_error f x hx]
    · simp only [simdChunksE, if_neg hc, mapE_cons_error f x hx xs]

/-! ### Claims -/

/-- Claim C1: for all supported execution kinds and all valid inputs,
`OperationTrait<K1>::apply(x) = OperationTrait<K2>::apply(x)` for every
operation family — the SIMD backend's output equals the scalar backend's
output exactly (neither sampled operation accumulates), at any hardware
width. -/
theorem backend_equivalence (k1 k2 : VecScalarDivKind)
    (j1 j2 : DifferenceKind) (w1 w2 : ℕ) (v : List ℚ) (s : ℚ) :
    VecScalarDivOp_apply k1 w1 v s = VecScalarDivOp_apply k2 w2 v s ∧
    DifferenceOp_apply j1 w1 v = DifferenceOp_apply j2 w2 v := by
  constructor
  · rw [VecScalarDivOp_apply_eq_map, VecScalarDivOp_apply_eq_map]
  · rw [DifferenceOp_apply_eq_map, DifferenceOp_apply_eq_map]

/-- Claim C2: for every vector of length `n` and nonzero scalar `s`,
Vector-Scalar Division produces an output of length `n` whose element at
each index `i < n` equals `v[i] / s`. -/
theorem vecScalarDiv_apply_correct (k : VecScalarDivKind) (w : ℕ)
    (v : List ℚ) (s : ℚ) (hs : s ≠ 0) (i : ℕ) (hi : i < v.length) :
    (VecScalarDivOp_apply k w v s).length = v.length ∧
    (VecScalarDivOp_apply k w v s).getD i 0 = v.getD i 0 / s := by
  rw [VecScalarDivOp_apply_eq_map]
  exact ⟨by rw [List.length_map], getD_map_of_lt _ 0 0 v i hi⟩

/-- Concrete instance of `vecScalarDiv_apply_correct` at the SIMD kind,
width 4, the spec's example vector, scalar 2 and index 1. -/
theorem vecScalarDiv_apply_correct_witness :
    (2 : ℚ) ≠ 0 ∧ 1 < ([1, 3, 6, 10] : List ℚ).length ∧
    ((VecScalarDivOp_apply VecScalarDivKind.simd 4 [1, 3, 6, 10] 2).length
        = ([1, 3, 6, 10] : List ℚ).length ∧
      (VecScalarDivOp_apply VecScalarDivKind.simd 4 [1, 3, 6, 10] 2).getD 1 0
        = ([1, 3, 6, 10] : List ℚ).getD 1 0 / 2) :=
  ⟨by norm_num, by norm_num,
    vecScalarDiv_apply_correct VecScalarDivKind.simd 4 [1, 3, 6, 10] 2
      (by norm_num) 1 (by norm_num)⟩

/-- Claim C3: for every vector of length `n ≥ 2`, Two-Point Difference
produces an output of length `n - 1` with `out[i] = v[i+1] - v[i]` for
every `i ≤ n - 2`; in particular a length-2 input yields the length-1
output holding the single adjacent difference. -/
theorem difference_apply_correct (k : DifferenceKind) (w : ℕ)
    (v : List ℚ) (h2 : 2 ≤ v.length) :
    (DifferenceOp_apply k w v).length = v.length - 1 ∧
    (∀ i : ℕ, i + 1 < v.length →
      (DifferenceOp_apply k w v).getD i 0 = v.getD (i + 1) 0 - v.getD i 0) ∧
    (v.length = 2 → DifferenceOp_apply k w v = [v.getD 1 0 - v.getD 0 0]) := by
  have hlen : (DifferenceOp_apply k w v).length = v.length - 1 := by
    rw [DifferenceOp_apply_eq_map, List.length_map, twopointWindows_length]
  have helem : ∀ i : ℕ, i + 1 < v.length →
      (DifferenceOp_apply k w v).getD i 0 = v.getD (i + 1) 0 - v.getD i 0 := by
    intro i hi
    have hiw : i < (twopointWindows v).length := by
      rw [twopointWindows_length]; omega
    rw [DifferenceOp_apply_eq_map, getD_map_of_lt _ (0, 0) 0 _ i hiw,
      twopointWindows_getD v i hi]
  refine ⟨hlen, helem, ?_⟩
  intro hv2
  have h1 : (DifferenceOp_apply k w v).length = 1 := by rw [hlen, hv2]
  obtain ⟨a, ha⟩ := List.length_eq_one.mp h1
  have h0 := helem 0 (by omega)
  rw [ha] at h0 ⊢
  have hav : a = v.getD 1 0 - v.getD 0 0 := h0
  rw [hav]

/-- Concrete instance of `difference_apply_correct` at the SIMD kind,
width 4 and the length-2 input `[1, 3]`: the output is the single adjacent
difference `[2]`. -/
theorem difference_apply_correct_witness :
    2 ≤ ([1, 3] : List ℚ).length ∧
    (DifferenceOp_apply DifferenceKind.simd 4 [1, 3]).length
      = ([1, 3] : List ℚ).length - 1 ∧
    (DifferenceOp_apply DifferenceKind.simd 4 [1, 3]).getD 0 0
      = ([1, 3] : List ℚ).getD 1 0 - ([1, 3] : List ℚ).getD 0 0 ∧
    DifferenceOp_apply DifferenceKind.simd 4 [1, 3]
      = [([1, 3] : List ℚ).getD 1 0 - ([1, 3] : List ℚ).getD 0 0] := by
  have h := difference_apply_correct DifferenceKind.simd 4 [1, 3] (by norm_num)
  exact ⟨by norm_num, h.1, h.2.1 0 (by norm_num), h.2.2 (by norm_num)⟩

/-- Claim C4: on the input `[1, 3, 6, 10]`, Two-Point Difference yields
exactly `[2, 3, 4]` and Vector-Scalar Division by `2` yields exactly
`[1/2, 3/2, 3, 5]`, on both backends. -/
theorem example_end_to_end_case :
    DifferenceOp_apply DifferenceKind.simd 4 [1, 3, 6, 10] = [2, 3, 4] ∧
    DifferenceOp_apply DifferenceKind.scalar 4 [1, 3, 6, 10] = [2, 3, 4] ∧
    VecScalarDivOp_apply VecScalarDivKind.simd 4 [1, 3, 6, 10] 2
      = [1/2, 3/2, 3, 5] ∧
    VecScalarDivOp_apply VecScalarDivKind.scalar 4 [1, 3, 6, 10] 2
      = [1/2, 3/2, 3, 5] := by
  refine ⟨?_, ?_, ?_, ?_⟩ <;>
    first
      | (rw [DifferenceOp_apply_eq_map]; norm_num [twopointWindows])
      | (rw [VecScalarDivOp_apply_eq_map]; norm_num)

/-- Claim C5: the Operation Trait entry points are pure dispatch —
`apply(args...)` equals the bound Kernel Generator applied to a freshly
default-constructed Operation Descriptor and the forwarded arguments,
definitionally (no computation, no validation of the arguments). -/
theorem operation_traits_pure_dispatch (w : ℕ) (v : List ℚ) (s : ℚ) :
    VecScalarDivOp_apply VecScalarDivKind.simd w v s
      = lazy_vector_scalar_kernel_simd ⟨⟩ w v s ∧
    DifferenceOp_apply DifferenceKind.simd w v
      = lazy_twopoint_kernel_simd ⟨⟩ w v :=
  ⟨rfl, rfl⟩

/-- Claim C6: the SIMD backend processes the index range in batches of
the hardware width (a leading full batch followed by the same traversal
of the rest), falls back to the scalar backend's per-index logic for any
remainder shorter than one full batch, and its result is identical for
every vector width. -/
theorem simd_batching_width_independent (w w' : ℕ) (v : List ℚ) (s : ℚ)
    (hw : 0 < w) (hl : w ≤ v.length) :
    VecScalarDivOp_apply VecScalarDivKind.simd w v s
      = (v.take w).map (fun x => x / s)
        ++ VecScalarDivOp_apply VecScalarDivKind.simd w (v.drop w) s ∧
    (∀ u : List ℚ, u.length < w' →
      VecScalarDivOp_apply VecScalarDivKind.simd w' u s
        = VecScalarDivOp_apply VecScalarDivKind.scalar w' u s) ∧
    VecScalarDivOp_apply VecScalarDivKind.simd w v s
      = VecScalarDivOp_apply VecScalarDivKind.simd w' v s ∧
    DifferenceOp_apply DifferenceKind.simd w v
      = DifferenceOp_apply DifferenceKind.simd w' v := by
  refine ⟨?_, ?_, ?_, ?_⟩
  · rw [VecScalarDivOp_apply_eq_map, VecScalarDivOp_apply_eq_map,
      ← List.map_append, List.take_append_drop]
  · intro u _
    rw [VecScalarDivOp_apply_eq_map, VecScalarDivOp_apply_eq_map]
  · rw [VecScalarDivOp_apply_eq_map, VecScalarDivOp_apply_eq_map]
  · rw [DifferenceOp_apply_eq_map, DifferenceOp_apply_eq_map]

/-- Concrete instances of `simd_batching_width_independent`: widths 4 and
8 over inputs of lengths 7, 8 and 9 (not divisible, divisible, not
divisible by the batch width) give identical results. -/
theorem simd_batching_width_independent_witness :
    (0 < 4 ∧ 4 ≤ ([1, 2, 3, 4, 5, 6, 7] : List ℚ).length ∧
      VecScalarDivOp_apply VecScalarDivKind.simd 4 [1, 2, 3, 4, 5, 6, 7] 2
        = VecScalarDivOp_apply VecScalarDivKind.simd 8 [1, 2, 3, 4, 5, 6, 7] 2) ∧
    VecScalarDivOp_apply VecScalarDivKind.simd 4 [1, 2, 3, 4, 5, 6, 7, 8] 2
      = VecScalarDivOp_apply VecScalarDivKind.simd 8 [1, 2, 3, 4, 5, 6, 7, 8] 2 ∧
    VecScalarDivOp_apply VecScalarDivKind.simd 4 [1, 2, 3, 4, 5, 6, 7, 8, 9] 2
      = VecScalarDivOp_apply VecScalarDivKind.simd 8 [1, 2, 3, 4, 5, 6, 7, 8, 9] 2 :=
  ⟨⟨by norm_num, by norm_num,
      (simd_batching_width_independent 4 8 [1, 2, 3, 4, 5, 6, 7] 2
        (by norm_num) (by norm_num)).2.2.1⟩,
    (simd_batching_width_independent 4 8 [1, 2, 3, 4, 5, 6, 7, 8] 2
      (by norm_num) (by norm_num)).2.2.1,
    (simd_batching_width_independent 4 8 [1, 2, 3, 4, 5, 6, 7, 8, 9] 2
      (by norm_num) (by norm_num)).2.2.1⟩

/-- Claim C7: under the caller-guaranteed precondition `s ≠ 0`,
Vector-Scalar Division never reaches a division by zero (the checked run
succeeds with the unchecked result); the layer performs no runtime check
of `s`, so for `s = 0` on a nonempty input the division-by-zero event of
the arithmetic primitive is reached and propagates (undefined behavior at
this layer, not a handled error). -/
theorem vecScalarDiv_no_division_by_zero (w : ℕ) (v : List ℚ) (s : ℚ) :
    (s ≠ 0 → vecScalarDivChecked w v s
      = Except.ok (VecScalarDivOp_apply VecScalarDivKind.simd w v s)) ∧
    (v ≠ [] → vecScalarDivChecked w v 0
      = Except.error "division by zero") := by
  constructor
  · intro hs
    show simdKernelE w (fun x => checkedDiv x s) v = Except.ok
      (simdKernel w (fun x => VectorScalarDivOperation.transform ⟨⟩ x s) v)
    exact simdKernelE_ok w
      (fun a => by simp only [checkedDiv, if_neg hs]; rfl) v
  · intro hv
    match v with
    | [] => exact absurd rfl hv
    | x :: xs =>
      have hx : checkedDiv x 0 = Except.error "division by zero" := by
        simp [checkedDiv]
      show simdChunksE w (fun y => checkedDiv y 0) (x :: xs).length (x :: xs)
          = Except.error "division by zero"
      exact simdChunksE_cons_error w (fun y => checkedDiv y 0) x hx xs
        (x :: xs).length

/-- Concrete instance of `vecScalarDiv_no_division_by_zero`: with the
validated scalar `2` the checked run of the SIMD backend succeeds, and
with scalar `0` on a nonempty input the division-by-zero event of the
arithmetic primitive propagates. -/
theorem vecScalarDiv_no_division_by_zero_witness :
    ((2 : ℚ) ≠ 0 ∧ vecScalarDivChecked 4 [1, 3, 6, 10] 2
      = Except.ok (VecScalarDivOp_apply VecScalarDivKind.simd 4 [1, 3, 6, 10] 2)) ∧
    (([1, 3, 6, 10] : List ℚ) ≠ [] ∧ vecScalarDivChecked 4 [1, 3, 6, 10] 0
      = Except.error "division by zero") :=
  ⟨⟨by norm_num,
      (vecScalarDiv_no_division_by_zero 4 [1, 3, 6, 10] 2).1 (by norm_num)⟩,
    ⟨by simp,
      (vecScalarDiv_no_division_by_zero 4 [1, 3, 6, 10] 0).2 (by simp)⟩⟩

/-- Claim C8: every `apply` call is a pure, bounded computation that
completes: the fuel-instrumented SIMD kernel run, given fuel one more
than its input length, returns (rather than exhausting its step bound)
and yields exactly the `apply` result, for both operation families. -/
theorem apply_terminates_bounded (w : ℕ) (v : List ℚ) (s : ℚ) :
    simdKernelFuel (v.length + 1) w
        (fun x => VectorScalarDivOperation.transform ⟨⟩ x s) v
      = some (VecScalarDivOp_apply VecScalarDivKind.simd w v s) ∧
    simdKernelFuel ((twopointWindows v).length + 1) w
        (fun p => DifferenceOperation.window ⟨⟩ p.1 p.2) (twopointWindows v)
      = some (DifferenceOp_apply DifferenceKind.simd w v) := by
  constructor
  · rw [simdKernelFuel_complete w _ (v.length + 1) v (Nat.lt_succ_self _),
      VecScalarDivOp_apply_eq_map]
    rfl
  · rw [simdKernelFuel_complete w _ _ _ (Nat.lt_succ_self _),
      DifferenceOp_apply_eq_map]
    rfl

/-- Claim C9: both public entry points return `void` (the `Unit` value in
the state-passing embedding); the result is delivered solely by
overwriting the caller-supplied output expression, and every argument
other than the designated output is left unchanged. -/
theorem apply_void_writes_output_frame (w : ℕ) (a : VecScalarDivArgs)
    (b : DifferenceArgs) :
    (VecScalarDivOp_simd_applySt w a).1 = () ∧
    (VecScalarDivOp_simd_applySt w a).2.input = a.input ∧
    (VecScalarDivOp_simd_applySt w a).2.scalar = a.scalar ∧
    (VecScalarDivOp_simd_applySt w a).2.output
      = VecScalarDivOp_apply VecScalarDivKind.simd w a.input a.scalar ∧
    (DifferenceOp_simd_applySt w b).1 = () ∧
    (DifferenceOp_simd_applySt w b).2.input = b.input ∧
    (DifferenceOp_simd_applySt w b).2.output
      = DifferenceOp_apply DifferenceKind.simd w b.input :=
  ⟨rfl, rfl, rfl, rfl, rfl, rfl, rfl⟩

/-- Claim C10: neither dispatch entry point ever propagates an exception
to the caller: in the exception-aware semantics, with every primitive of
the sampled operations non-signalling, both kernels return `Except.ok` of
the plain `apply` result on all inputs. -/
theorem apply_noexcept (w : ℕ) (v : List ℚ) (s : ℚ) :
    vecScalarDivExcept w v s
      = Except.ok (VecScalarDivOp_apply VecScalarDivKind.simd w v s) ∧
    differenceExcept w v
      = Except.ok (DifferenceOp_apply DifferenceKind.simd w v) := by
  constructor
  · exact simdKernelE_ok w (fun a => rfl) v
  · exact simdKernelE_ok w (fun p => rfl) (twopointWindows v)
